import Mathlib

/-!
Verification of the Vouch Proxy authentication handlers
(`handlers` package: `CallbackHandler`, `AuthStateHandler`,
`isUsernameCaseInsensitive`, `verifyUser`, `isEmailValid`, and the ADFS
provider's `GetUserInfoFromADFS`) against the natural-language
specification.

Go strings are modelled as `List Char` (`Str`).  Go's `len` on a string
counts UTF-8 bytes, so it is modelled by `goLen`, the sum of the UTF-8
byte sizes of the characters.  External libraries (`encoding/json`,
`base64`, the gorilla session store) and repository packages that are not
part of the analysed source (`pkg/domains`, `pkg/structs`,
`handlers/common`, `pkg/responses`) are modelled as oracles or, where the
specification describes them, as definitions marked `Modelled from the
spec:`.
-/

/-- Go strings, modelled as lists of characters. -/
abbrev Str := List Char

/-- `len` of a Go string: the number of UTF-8 bytes.
    (All characters appearing in the claims are ASCII, where this agrees
    with the character count.) -/
def goLen (s : Str) : Nat :=
  (s.map (fun c =>
    if c.toNat < 0x80 then 1
    else if c.toNat < 0x800 then 2
    else if c.toNat < 0x10000 then 3
    else 4)).sum

/-- ASCII lower-casing of one character, as `strings.ToLower` acts on the
    ASCII range (the only range the email character classes accept). -/
def toLowerCh (c : Char) : Char :=
  if 0x41 ≤ c.toNat ∧ c.toNat ≤ 0x5a then Char.ofNat (c.toNat + 0x20) else c

/-- `strings.ToLower`. -/
def lowerStr (s : Str) : Str := s.map toLowerCh

/-- `strings.HasSuffix`. -/
def goHasSuffix (s suffix_ : Str) : Bool := List.isSuffixOf suffix_ s

/-- Go's `strings.Split(s, sep)` for a one-character separator:
    the list of maximal separator-free segments (always non-empty). -/
def splitOnChar (sep : Char) : Str → List Str
  | [] => [[]]
  | c :: rest =>
    let r := splitOnChar sep rest
    if c = sep then [] :: r
    else
      match r with
      | [] => [[c]]
      | p :: ps => (c :: p) :: ps

/-- The character `@` (code 0x40). -/
def atCh : Char := Char.ofNat 0x40

/-- The character `.` (code 0x2e). -/
def dotCh : Char := Char.ofNat 0x2e

/-- `[a-zA-Z0-9]`: the alphanumeric character class of the email regex. -/
def isAlnumCh (c : Char) : Bool :=
  (0x41 ≤ c.toNat && c.toNat ≤ 0x5a) ||
  (0x61 ≤ c.toNat && c.toNat ≤ 0x7a) ||
  (0x30 ≤ c.toNat && c.toNat ≤ 0x39)

/-- The local-part character class of the email regex: alphanumerics plus
    the literal characters `. ! # $ % & ' * + / = ? ^ _` backtick
    `{ | } ~ -` (given here by code point). -/
def isLocalChar (c : Char) : Bool :=
  isAlnumCh c ||
  [0x2e, 0x21, 0x23, 0x24, 0x25, 0x26, 0x27, 0x2a, 0x2b, 0x2f, 0x3d,
   0x3f, 0x5e, 0x5f, 0x60, 0x7b, 0x7c, 0x7d, 0x7e, 0x2d].contains c.toNat

/-- The interior character class `[a-zA-Z0-9-]` of a domain label. -/
def isLabelChar (c : Char) : Bool := isAlnumCh c || c.toNat == 0x2d

/-- One domain label of the email regex,
    `[a-zA-Z0-9](?:[a-zA-Z0-9-]{0,61}[a-zA-Z0-9])?`:
    1 to 63 characters, all in `[a-zA-Z0-9-]`, first and last
    alphanumeric. -/
def labelOk (l : Str) : Bool :=
  match l with
  | [] => false
  | c :: _ =>
    isAlnumCh c && l.length ≤ 63 && l.all isLabelChar &&
    isAlnumCh (l.getLastD c)

/-- Anchored match of the email regex used both by `emailRegex`
    (handlers) and `rxEmail` (ADFS provider) — the two pattern strings in
    the source are identical:
    local part `[...]+`, an `@`, then `label("."label)*`.
    Since `@` occurs in no character class of the pattern, a string is in
    the regex language iff it contains exactly one `@`, the part before
    it is a non-empty run of local-part characters, and every
    `.`-separated segment of the part after it is a valid label. -/
def emailRegexMatch (s : Str) : Bool :=
  match splitOnChar atCh s with
  | [lp, dp] => (!lp.isEmpty) && lp.all isLocalChar && (splitOnChar dotCh dp).all labelOk
  | _ => false

/-- `isEmailValid` (handlers): length bounds, then the regex. -/
def isEmailValid (e : Str) : Bool :=
  if goLen e < 3 || goLen e > 254 then false
  else emailRegexMatch e

/-- The part of an email address after its `@`, for a string that the
    email regex splits as `[local, domain]`. -/
def emailDomain (u : Str) : Str :=
  match splitOnChar atCh u with
  | [_, dp] => dp
  | _ => []

theorem toNat_ofNat_valid (n : Nat) (h : n < 0xd800) : (Char.ofNat n).toNat = n := by
  rw [Char.ofNat, dif_pos (Or.inl h)]
  simp [Char.ofNatAux, Char.toNat, UInt32.ofNat', UInt32.toNat, BitVec.toNat_ofNatLt]

theorem toLowerCh_eq_at_iff (c : Char) : toLowerCh c = atCh ↔ c = atCh := by
  constructor
  · intro h
    unfold toLowerCh at h
    split at h
    · exfalso
      have hvalid : c.toNat + 0x20 < 0xd800 := by omega
      have := congrArg Char.toNat h
      rw [toNat_ofNat_valid _ hvalid] at this
      have hat : atCh.toNat = 0x40 := by decide
      omega
    · exact h
  · intro h
    subst h
    decide

theorem mem_at_lowerStr {s : Str} : atCh ∈ lowerStr s ↔ atCh ∈ s := by
  unfold lowerStr
  rw [List.mem_map]
  constructor
  · rintro ⟨c, hc, hl⟩
    rwa [← (toLowerCh_eq_at_iff c).mp hl]
  · intro h
    exact ⟨atCh, h, (toLowerCh_eq_at_iff atCh).mpr rfl⟩

theorem splitOnChar_ne_nil (sep : Char) (s : Str) : splitOnChar sep s ≠ [] := by
  induction s with
  | nil => simp [splitOnChar]
  | cons c rest ih =>
    simp only [splitOnChar]
    split
    · simp
    · cases h : splitOnChar sep rest <;> simp

theorem splitOnChar_single {sep : Char} {s b : Str}
    (h : splitOnChar sep s = [b]) : s = b ∧ sep ∉ b := by
  induction s generalizing b with
  | nil =>
    simp only [splitOnChar] at h
    obtain ⟨hb, -⟩ := List.cons.inj h
    subst hb
    exact ⟨rfl, by simp⟩
  | cons c rest ih =>
    simp only [splitOnChar] at h
    by_cases hc : c = sep
    · rw [if_pos hc] at h
      exact absurd (List.cons.inj h).2 (splitOnChar_ne_nil sep rest)
    · rw [if_neg hc] at h
      cases hr : splitOnChar sep rest with
      | nil => exact absurd hr (splitOnChar_ne_nil sep rest)
      | cons p ps =>
        rw [hr] at h
        obtain ⟨hb, hps⟩ := List.cons.inj h
        subst hps
        obtain ⟨h1, h2⟩ := ih hr
        subst h1
        refine ⟨hb ▸ rfl, ?_⟩
        rw [← hb]
        intro hmem
        rcases List.mem_cons.mp hmem with h' | h'
        · exact hc h'.symm
        · exact h2 h'

theorem splitOnChar_pair {sep : Char} {s a b : Str}
    (h : splitOnChar sep s = [a, b]) :
    s = a ++ sep :: b ∧ sep ∉ a ∧ sep ∉ b := by
  induction s generalizing a b with
  | nil => simp [splitOnChar] at h
  | cons c rest ih =>
    simp only [splitOnChar] at h
    by_cases hc : c = sep
    · rw [if_pos hc] at h
      obtain ⟨ha, hr⟩ := List.cons.inj h
      obtain ⟨h1, h2⟩ := splitOnChar_single hr
      subst h1 hc
      exact ⟨by simp [← ha], by simp [← ha], h2⟩
    · rw [if_neg hc] at h
      cases hr : splitOnChar sep rest with
      | nil => exact absurd hr (splitOnChar_ne_nil sep rest)
      | cons p ps =>
        rw [hr] at h
        obtain ⟨ha, hps⟩ := List.cons.inj h
        subst hps
        obtain ⟨h1, h2, h3⟩ := ih hr
        subst h1
        refine ⟨by rw [← ha]; rfl, ?_, h3⟩
        rw [← ha]
        intro hmem
        rcases List.mem_cons.mp hmem with h' | h'
        · exact hc h'.symm
        · exact h2 h'

/-- In `x ++ c :: y = t ++ c :: z`, when `c` occurs neither in `x` nor in
    `y`, both decompositions cut at the unique occurrence of `c`, so the
    tails agree. -/
theorem tail_eq_of_append_cons_eq {α : Type} {c : α} :
    ∀ (t x y z : List α), c ∉ x → c ∉ y → x ++ c :: y = t ++ c :: z →
    z = y := by
  intro t
  induction t with
  | nil =>
    intro x y z hx hy h
    cases x with
    | nil => simpa using h.symm
    | cons a as =>
      exfalso
      obtain ⟨h1, _⟩ := List.cons.inj h
      exact hx (h1 ▸ List.mem_cons_self a as)
  | cons a t ih =>
    intro x y z hx hy h
    cases x with
    | nil =>
      exfalso
      obtain ⟨h1, h2⟩ := List.cons.inj h
      subst h1
      exact hy (h2 ▸ List.mem_append_right t (List.mem_cons_self c z))
    | cons b bs =>
      obtain ⟨_, h2⟩ := List.cons.inj h
      exact ih bs y z (fun hm => hx (List.mem_cons_of_mem b hm)) hy h2

/-- For a string that the email regex decomposes as `[lp, dp]`, the
    lower-cased string ends with `"@" ++ lowered d` exactly when the
    lowered domain part equals the lowered `d`. -/
theorem hasSuffix_at_iff_domain {u lp dp d : Str}
    (hsplit : splitOnChar atCh u = [lp, dp]) :
    goHasSuffix (lowerStr u) (atCh :: lowerStr d) = true ↔
    lowerStr dp = lowerStr d := by
  obtain ⟨hu, hlp, hdp⟩ := splitOnChar_pair hsplit
  subst hu
  have hlow : lowerStr (lp ++ atCh :: dp)
      = lowerStr lp ++ atCh :: lowerStr dp := by
    simp only [lowerStr, List.map_append, List.map_cons]
    rw [(toLowerCh_eq_at_iff atCh).mpr rfl]
  unfold goHasSuffix
  rw [List.isSuffixOf_iff_suffix, hlow]
  constructor
  · rintro ⟨t, ht⟩
    have h1 : atCh ∉ lowerStr lp := fun hm => hlp (mem_at_lowerStr.mp hm)
    have h2 : atCh ∉ lowerStr dp := fun hm => hdp (mem_at_lowerStr.mp hm)
    exact (tail_eq_of_append_cons_eq t (lowerStr lp) (lowerStr dp)
      (lowerStr d) h1 h2 ht.symm).symm
  · intro h
    rw [← h]
    exact ⟨lowerStr lp, rfl⟩

theorem emailRegexMatch_split {u : Str} (h : emailRegexMatch u = true) :
    ∃ lp dp, splitOnChar atCh u = [lp, dp] := by
  unfold emailRegexMatch at h
  cases hs : splitOnChar atCh u with
  | nil => rw [hs] at h; exact absurd h (by simp)
  | cons lp rest =>
    cases rest with
    | nil => rw [hs] at h; exact absurd h (by simp)
    | cons dp rest2 =>
      cases rest2 with
      | nil => exact ⟨lp, dp, rfl⟩
      | cons _ _ => rw [hs] at h; exact absurd h (by simp)

/-- `structs.User`: the fields consumed by the analysed handlers. -/
structure User where
  Username : Str
  Email : Str
  TeamMemberships : List Str
deriving DecidableEq

/-- The configuration fields read by the analysed handlers
    (`cfg.Cfg` plus `cfg.GenOAuth.CodeChallengeMethod`). -/
structure Cfg where
  AllowAllUsers : Bool
  WhiteList : List Str
  TeamWhiteList : List Str
  Domains : List Str
  CaseInsensitiveEmails : Bool
  CaseInsensitiveEmailDomains : List Str
  CodeChallengeMethod : Str
deriving DecidableEq

/-- `isUsernameCaseInsensitive` (handlers): true when
    `cfg.Cfg.CaseInsensitiveEmails` is set, or when the lower-cased
    username ends with `"@" + strings.ToLower(domain)` for some
    configured case-insensitive email domain. -/
def isUsernameCaseInsensitive (cfg : Cfg) (user : User) : Bool :=
  if cfg.CaseInsensitiveEmails then true
  else
    let lowerUsername := lowerStr user.Username
    cfg.CaseInsensitiveEmailDomains.any
      (fun d => goHasSuffix lowerUsername (atCh :: lowerStr d))

/-- Modelled from the spec: `domains.IsUnderManagement` lives in
    `pkg/domains`, which is not part of the analysed source.  Spec §4.7:
    "splits at `@`, compares the domain part against each configured
    managed domain by label-suffix equality; returns true on any match",
    case-insensitively on the domain part (spec §8, invariant 6).
    The domain part is the segment after the last `@` (the whole string
    when no `@` is present). -/
def isUnderManagement (doms : List Str) (email : Str) : Bool :=
  let emailDomain := lowerStr ((splitOnChar atCh email).getLastD [])
  doms.any (fun d =>
    let dl := lowerStr d
    emailDomain == dl || goHasSuffix emailDomain (dotCh :: dl))

/-- `verifyUser` (handlers): the authorization engine.  A `switch` whose
    cases are, in order: `AllowAllUsers`, non-empty `WhiteList`,
    non-empty `TeamWhiteList`, non-empty `Domains`, and a default that
    allows everyone (with a warning logged). -/
def verifyUser (cfg : Cfg) (user : User) : Bool :=
  if cfg.AllowAllUsers then true
  else if cfg.WhiteList.length ≠ 0 then
    let usernameIsCaseInsensitive := isUsernameCaseInsensitive cfg user
    cfg.WhiteList.any (fun wl =>
      decide (user.Username = wl) ||
      (isEmailValid user.Username && usernameIsCaseInsensitive &&
       decide (lowerStr user.Username = lowerStr wl)))
  else if cfg.TeamWhiteList.length ≠ 0 then
    user.TeamMemberships.any (fun team =>
      cfg.TeamWhiteList.any (fun wl => decide (team = wl)))
  else if cfg.Domains.length ≠ 0 then
    isUnderManagement cfg.Domains user.Email
  else true

theorem bool_eq_of_iff {a b : Bool} (h : a = true ↔ b = true) : a = b := by
  cases a <;> cases b <;> simp_all

theorem emailRegexMatch_of_isEmailValid {e : Str}
    (h : isEmailValid e = true) : emailRegexMatch e = true := by
  unfold isEmailValid at h
  split at h
  · exact absurd h (by simp)
  · exact h

/-- For a username in the regex language, `isUsernameCaseInsensitive`
    holds exactly when `CaseInsensitiveEmails` is set or the username's
    domain part is one of the configured case-insensitive email domains
    (compared case-insensitively). -/
theorem isUsernameCaseInsensitive_iff (cfg : Cfg) (u : User)
    (hv : emailRegexMatch u.Username = true) :
    isUsernameCaseInsensitive cfg u = true ↔
    (cfg.CaseInsensitiveEmails = true ∨
     ∃ d ∈ cfg.CaseInsensitiveEmailDomains,
       lowerStr (emailDomain u.Username) = lowerStr d) := by
  obtain ⟨lp, dp, hsplit⟩ := emailRegexMatch_split hv
  have hdom : emailDomain u.Username = dp := by
    unfold emailDomain
    rw [hsplit]
  unfold isUsernameCaseInsensitive
  by_cases hci : cfg.CaseInsensitiveEmails
  · simp [hci]
  · simp only [hci, if_false, Bool.false_eq_true, false_or, List.any_eq_true]
    refine exists_congr (fun d => and_congr_right (fun _ => ?_))
    rw [hasSuffix_at_iff_domain hsplit, hdom]

/-- The whitelist loop of `verifyUser`, as the specification states it:
    some entry matches exactly, or the username is a valid email that is
    case-insensitive (by domain list or by the global flag) and matches
    an entry after case-folding both sides. -/
theorem whitelist_any_iff (cfg : Cfg) (u : User) :
    (cfg.WhiteList.any (fun wl =>
      decide (u.Username = wl) ||
      (isEmailValid u.Username && isUsernameCaseInsensitive cfg u &&
       decide (lowerStr u.Username = lowerStr wl)))) = true ↔
    ∃ wl ∈ cfg.WhiteList, u.Username = wl ∨
      (isEmailValid u.Username = true ∧
       (cfg.CaseInsensitiveEmails = true ∨
        ∃ d ∈ cfg.CaseInsensitiveEmailDomains,
          lowerStr (emailDomain u.Username) = lowerStr d) ∧
       lowerStr u.Username = lowerStr wl) := by
  rw [List.any_eq_true]
  refine exists_congr (fun wl => and_congr_right (fun _ => ?_))
  rw [Bool.or_eq_true, decide_eq_true_eq, Bool.and_eq_true, Bool.and_eq_true,
    decide_eq_true_eq]
  constructor
  · rintro (h | ⟨⟨hv, hci⟩, hl⟩)
    · exact Or.inl h
    · exact Or.inr ⟨hv,
        (isUsernameCaseInsensitive_iff cfg u
          (emailRegexMatch_of_isEmailValid hv)).mp hci, hl⟩
  · rintro (h | ⟨hv, hci, hl⟩)
    · exact Or.inl h
    · exact Or.inr ⟨⟨hv,
        (isUsernameCaseInsensitive_iff cfg u
          (emailRegexMatch_of_isEmailValid hv)).mpr hci⟩, hl⟩

theorem team_any_iff (cfg : Cfg) (u : User) :
    (u.TeamMemberships.any (fun team =>
      cfg.TeamWhiteList.any (fun wl => decide (team = wl)))) = true ↔
    ∃ t ∈ u.TeamMemberships, t ∈ cfg.TeamWhiteList := by
  simp [List.any_eq_true]

/-! ## The decision table of spec §4.5, as written -/

/-- Row 2 of the decision table: `Username ∈ WhiteList`, case-folded when
    the username is a valid email that is case-insensitive. -/
def wlRuleB (cfg : Cfg) (u : User) : Bool :=
  decide (∃ wl ∈ cfg.WhiteList, u.Username = wl ∨
    (isEmailValid u.Username = true ∧
     (cfg.CaseInsensitiveEmails = true ∨
      ∃ d ∈ cfg.CaseInsensitiveEmailDomains,
        lowerStr (emailDomain u.Username) = lowerStr d) ∧
     lowerStr u.Username = lowerStr wl))

/-- Row 3 of the decision table:
    `User.TeamMemberships ∩ TeamWhiteList ≠ ∅`. -/
def teamRuleB (cfg : Cfg) (u : User) : Bool :=
  decide (∃ t ∈ u.TeamMemberships, t ∈ cfg.TeamWhiteList)

/-- Row 4 of the decision table: the email's domain is under a managed
    domain. -/
def domainsRuleB (cfg : Cfg) (u : User) : Bool :=
  isUnderManagement cfg.Domains u.Email

/-- "First matching rule wins"; an empty table means Allowed. -/
def firstMatch : List (Bool × Bool) → Bool
  | [] => true
  | (g, d) :: rest => if g then d else firstMatch rest

/-- The Authorization Engine as the specification's decision table reads:
    the rows `AllowAll`, `WhiteList` (when non-empty), `TeamWhiteList`
    (when non-empty), `Domains` (when non-empty) in priority order, and
    Allowed when no row applies. -/
def verifyUserSpec (cfg : Cfg) (u : User) : Bool :=
  firstMatch
    [ (cfg.AllowAllUsers, true),
      (decide (cfg.WhiteList ≠ []), wlRuleB cfg u),
      (decide (cfg.TeamWhiteList ≠ []), teamRuleB cfg u),
      (decide (cfg.Domains ≠ []), domainsRuleB cfg u) ]

/-! ## ADFS provider (`GetUserInfoFromADFS`) -/

/-- `adfsTokenRes`: the fields of the token-endpoint response body. -/
structure AdfsTokenRes where
  access_token : Str
  token_type : Str
  id_token : Str
  expires_in : Int
deriving DecidableEq

/-- `structs.ADFSUser`: the fields the provider reads. -/
structure ADFSUser where
  Username : Str
  UPN : Str
  Email : Str
deriving DecidableEq

/-- `structs.PTokens`. -/
structure PTokens where
  PAccessToken : Str
  PIdToken : Str
deriving DecidableEq

/-- Outcomes of the external-library and out-of-source calls made by
    `GetUserInfoFromADFS` after the HTTP exchange:
    * `unmarshalTokenRes`: `json.Unmarshal` of the response body into
      `adfsTokenRes` (`none` models a parse error);
    * `b64RawURLDecode`: `base64.RawURLEncoding.DecodeString` of the
      second JWS segment (`none` models a decode error);
    * `unmarshalADFSUser`: `json.Unmarshal` of the decoded payload into
      `structs.ADFSUser` — the source discards this call's error, so it
      totals to a (possibly zero-valued) record;
    * `mapClaims`: `common.MapClaims` (not in the analysed source);
      `some e` models a returned error;
    * `prepareUserData`: `structs.ADFSUser.PrepareUserData` (not in the
      analysed source). -/
structure JsonEnv where
  unmarshalTokenRes : Str → Option AdfsTokenRes
  b64RawURLDecode : Str → Option Str
  unmarshalADFSUser : Str → ADFSUser
  mapClaims : Str → Option Str
  prepareUserData : ADFSUser → ADFSUser

/-- The ADFS email fix-up (provider lines 99–105): if the decoded user's
    `Email` is empty and its `UPN` matches the email regex, copy `UPN`
    into `Email`. -/
def adfsEmailFixup (a : ADFSUser) : ADFSUser :=
  if goLen a.Email = 0 then
    if emailRegexMatch a.UPN then { a with Email := a.UPN } else a
  else a

/-- `GetUserInfoFromADFS`, from the point where the token-endpoint
    response body `data` has been read (line 62).  The earlier part of
    the function builds and performs the HTTP request; its network
    outcome is not modelled (a network error returns early and reaches
    none of the code below).  Mirrors the source exactly: a body that
    fails to unmarshal, an `id_token` with fewer than two `.`-separated
    segments, and a payload that fails base64 decoding all log and
    `return nil` (success) — only a `common.MapClaims` failure is
    returned as an error. -/
def getUserInfoFromADFS (env : JsonEnv) (data : Str) (user : User)
    (ptokens : PTokens) : Except Str (User × PTokens) :=
  match env.unmarshalTokenRes data with
  | none => .ok (user, ptokens)
  | some tokenRes =>
    let ptokens : PTokens :=
      { PAccessToken := tokenRes.access_token, PIdToken := tokenRes.id_token }
    let s := splitOnChar dotCh tokenRes.id_token
    if s.length < 2 then .ok (user, ptokens)
    else
      match env.b64RawURLDecode (s.getD 1 []) with
      | none => .ok (user, ptokens)
      | some idToken =>
        let adfsUser := env.unmarshalADFSUser idToken
        match env.mapClaims idToken with
        | some e => .error e
        | none =>
          let adfsUser := adfsEmailFixup (env.prepareUserData adfsUser)
          .ok ({ user with Username := adfsUser.Username,
                           Email := adfsUser.Email }, ptokens)

/-! ## HTTP handlers (`CallbackHandler`, `AuthStateHandler`) -/

/-- The responses a handler can produce.  `error400`/`error401`/
    `error403`/`error500` model `responses.Error400` etc. with the
    formatted message; `redirect302` models `responses.Redirect302`;
    `renderIndex` models `responses.RenderIndex`; `panicked` models a Go
    panic raised by a failing interface type assertion. -/
inductive Resp where
  | error400 (msg : Str)
  | error401 (msg : Str)
  | error403 (msg : Str)
  | error500 (msg : Str)
  | redirect302 (url : Str)
  | renderIndex (body : Str)
  | panicked
deriving DecidableEq

/-- The kind of a response, forgetting the message. -/
inductive RKind where
  | k400
  | k401
  | k403
  | k500
  | k302
  | kIndex
  | kPanic
deriving DecidableEq

/-- Classify a response by its kind. -/
def respKind : Resp → RKind
  | .error400 _ => .k400
  | .error401 _ => .k401
  | .error403 _ => .k403
  | .error500 _ => .k500
  | .redirect302 _ => .k302
  | .renderIndex _ => .kIndex
  | .panicked => .kPanic

/-- Is the response one of the error responses (or a panic)? -/
def isErrorResp (r : Resp) : Bool :=
  match r with
  | .redirect302 _ => false
  | .renderIndex _ => false
  | _ => true

/-- The query values `CallbackHandler` reads from the request:
    `r.URL.Query().Get` of `error`, `error_description` and `state`
    (empty when absent), and `r.URL.RawQuery`. -/
structure CallbackReq where
  errorParam : Str
  errorDescription : Str
  state : Str
  rawQuery : Str
deriving DecidableEq

/-- The message of `CallbackHandler`'s 401:
    `"/auth Error from IdP: %s - %s"` with the IdP error and its
    description. -/
def errFromIdPMsg (e desc : Str) : Str :=
  ("/auth Error from IdP: ".data) ++ e ++ (" - ".data) ++ desc

/-- `CallbackHandler` (route `/auth`): a non-empty `error` query value
    yields a 401 carrying the description; an empty `state` yields a
    400; otherwise a 302 redirect to `/auth/{state}/?` followed by the
    raw query.  The handler performs no IdP exchange itself — its model
    takes no exchange oracle. -/
def callbackHandler (r : CallbackReq) : Resp :=
  if r.errorParam ≠ [] then
    .error401 (errFromIdPMsg r.errorParam r.errorDescription)
  else if r.state = [] then
    .error400 (("/auth: could not find state in query ".data) ++ r.rawQuery)
  else
    .redirect302 (("/auth/".data) ++ r.state ++ ("/?".data) ++ r.rawQuery)

/-- The gorilla session as `AuthStateHandler` sees it: the four
    `session.Values` keys it reads.  `none` models an absent key (a Go
    `nil` interface value). -/
structure Session where
  state : Option Str
  codeChallenge : Option Str
  codeVerifier : Option Str
  requestedURL : Option Str
deriving DecidableEq

/-- A fresh, empty session: what `sessstore.Get` yields when the request
    carries no (decodable) session cookie. -/
def emptySession : Session := ⟨none, none, none, none⟩

instance {ε α : Type} [DecidableEq ε] [DecidableEq α] : DecidableEq (Except ε α) :=
  fun x y =>
  match x, y with
  | .ok a, .ok b =>
    if h : a = b then .isTrue (congrArg Except.ok h)
    else .isFalse (fun hh => h (Except.ok.inj hh))
  | .error a, .error b =>
    if h : a = b then .isTrue (congrArg Except.error h)
    else .isFalse (fun hh => h (Except.error.inj hh))
  | .ok _, .error _ => .isFalse (fun hh => Except.noConfusion hh)
  | .error _, .ok _ => .isFalse (fun hh => Except.noConfusion hh)

/-- The inputs of one `AuthStateHandler` invocation:
    * `cfg`: the configuration;
    * `sessGetError`: did `sessstore.Get` return an error;
    * `sess`: the decoded session cookie (`none` = absent, giving a
      fresh empty session);
    * `queryState`: the `state` query value;
    * `exchange`: the outcome of `getUserInfo` (the provider call);
    * `mintResult`: the outcome of `jwtmanager.NewVPJWT`. -/
structure AuthEnv where
  cfg : Cfg
  sessGetError : Bool
  sess : Option Session
  queryState : Str
  exchange : Except Str User
  mintResult : Except Str Str
deriving DecidableEq

/-- The observable outcome of one `AuthStateHandler` invocation: the
    response, whether `cookie.SetCookie` was called, and the session
    cookie as the client holds it afterwards (`none` once the handler
    saved it with `MaxAge = -1`, which makes the cookie store delete
    it). -/
structure AuthOut where
  resp : Resp
  cookieSet : Bool
  sessAfter : Option Session
deriving DecidableEq

/-- `AuthStateHandler` (route `/auth/{state}/`), mirroring the source's
    control flow:
    1. a session-store error → 400;
    2. `session.Values["state"] != queryState` → 400 (an absent key is a
       `nil` interface, unequal to every string);
    3. with a configured `CodeChallengeMethod`, the
       `.(string)` type assertions on `codeChallenge`/`codeVerifier`
       panic when a key is absent;
    4. a `getUserInfo` error → 400;
    5. `verifyUser` false → 403;
    6. a `NewVPJWT` error → 500;
    7. `cookie.SetCookie`; then the `.(string)` assertion on
       `requestedURL` panics when the key is absent; a non-empty
       `requestedURL` clears the session (`MaxAge = -1`, saved) and
       redirects 302; an empty one renders the index page, leaving the
       session untouched. -/
def authStateHandler (env : AuthEnv) : AuthOut :=
  if env.sessGetError then
    ⟨.error400 ("/auth : could not find session store".data), false, env.sess⟩
  else
    let session := env.sess.getD emptySession
    if session.state ≠ some env.queryState then
      ⟨.error400 ("/auth Invalid session state".data), false, env.sess⟩
    else if env.cfg.CodeChallengeMethod ≠ [] ∧
        (session.codeChallenge = none ∨ session.codeVerifier = none) then
      ⟨.panicked, false, env.sess⟩
    else
      match env.exchange with
      | .error _ =>
        ⟨.error400 ("/auth Error while retreiving user info after successful login at the OAuth provider".data),
         false, env.sess⟩
      | .ok user =>
        if verifyUser env.cfg user = false then
          ⟨.error403 ("/auth User is not authorized".data), false, env.sess⟩
        else
          match env.mintResult with
          | .error _ =>
            ⟨.error500 ("/auth Token creation failure".data), false, env.sess⟩
          | .ok tokenstring =>
            match session.requestedURL with
            | none => ⟨.panicked, true, env.sess⟩
            | some requestedURL =>
              if requestedURL ≠ [] then
                ⟨.redirect302 requestedURL, true, none⟩
              else
                ⟨.renderIndex (("/auth ".data) ++ tokenstring), true, env.sess⟩

/-- Did `sessstore.Get` succeed? -/
def sessOkB (env : AuthEnv) : Bool := !env.sessGetError

/-- Does the stored state equal the query state? -/
def stateOkB (env : AuthEnv) : Bool :=
  decide ((env.sess.getD emptySession).state = some env.queryState)

/-- Do the PKCE type assertions go through (vacuously so when no code
    challenge method is configured)? -/
def pkceOkB (env : AuthEnv) : Bool :=
  decide (env.cfg.CodeChallengeMethod = []) ||
  (!((env.sess.getD emptySession).codeChallenge == none) &&
   !((env.sess.getD emptySession).codeVerifier == none))

/-- Did the IdP exchange (`getUserInfo`) succeed? -/
def exOkB (env : AuthEnv) : Bool :=
  match env.exchange with
  | .ok _ => true
  | .error _ => false

/-- Did the authorization engine allow the exchanged user? -/
def authzOkB (env : AuthEnv) : Bool :=
  match env.exchange with
  | .ok user => verifyUser env.cfg user
  | .error _ => false

/-- Did token minting succeed? -/
def mintOkB (env : AuthEnv) : Bool :=
  match env.mintResult with
  | .ok _ => true
  | .error _ => false

/-- The response kind `AuthStateHandler` must produce, as dictated by the
    first failing step of the sequence
    session fetch → state check → PKCE assertions → IdP exchange →
    authorization → minting → requested-URL dispatch. -/
def expectedKind (env : AuthEnv) : RKind :=
  if env.sessGetError then .k400
  else if (env.sess.getD emptySession).state ≠ some env.queryState then .k400
  else if env.cfg.CodeChallengeMethod ≠ [] ∧
      ((env.sess.getD emptySession).codeChallenge = none ∨
       (env.sess.getD emptySession).codeVerifier = none) then .kPanic
  else
    match env.exchange with
    | .error _ => .k400
    | .ok user =>
      if verifyUser env.cfg user = false then .k403
      else
        match env.mintResult with
        | .error _ => .k500
        | .ok _ =>
          match (env.sess.getD emptySession).requestedURL with
          | none => .kPanic
          | some requestedURL => if requestedURL ≠ [] then .k302 else .kIndex

/-! ## Claim theorems: the authorization engine -/

theorem goLen_eq_zero {s : Str} : goLen s = 0 ↔ s = [] := by
  cases s with
  | nil => simp [goLen]
  | cons c rest =>
    simp only [goLen, List.map_cons, List.sum_cons]
    constructor
    · intro h
      exfalso
      have : (if c.toNat < 0x80 then 1
        else if c.toNat < 0x800 then 2
        else if c.toNat < 0x10000 then 3 else 4) ≥ 1 := by
        repeat' split
        all_goals omega
      omega
    · intro h
      exact absurd h (by simp)

/-- In WhiteList mode, `verifyUser` is the specification's whitelist
    decision. -/
theorem verifyUser_whitelist_iff (cfg : Cfg) (u : User)
    (h1 : cfg.AllowAllUsers = false) (h2 : cfg.WhiteList ≠ []) :
    verifyUser cfg u = true ↔
      ∃ wl ∈ cfg.WhiteList, u.Username = wl ∨
        (isEmailValid u.Username = true ∧
         (cfg.CaseInsensitiveEmails = true ∨
          ∃ d ∈ cfg.CaseInsensitiveEmailDomains,
            lowerStr (emailDomain u.Username) = lowerStr d) ∧
         lowerStr u.Username = lowerStr wl) := by
  have hlen : cfg.WhiteList.length ≠ 0 := by
    simpa [List.length_eq_zero] using h2
  unfold verifyUser
  rw [if_neg (by simp [h1]), if_pos hlen]
  exact whitelist_any_iff cfg u

/-- C2: `verifyUser` evaluates the policy modes in the fixed priority
    order AllowAll, WhiteList (when non-empty), TeamWhiteList (when
    non-empty), Domains (when non-empty); the first matching mode alone
    determines the decision, and with none of the four configured every
    user is Allowed.  Stated as: the engine equals the specification's
    first-match-wins decision table. -/
theorem verifyUser_priority_order :
    ∀ (cfg : Cfg) (u : User), verifyUser cfg u = verifyUserSpec cfg u := by
  intro cfg u
  by_cases h1 : cfg.AllowAllUsers
  · simp [verifyUser, verifyUserSpec, firstMatch, h1]
  · have h1' : cfg.AllowAllUsers = false := by simpa using h1
    by_cases h2 : cfg.WhiteList = []
    · by_cases h3 : cfg.TeamWhiteList = []
      · by_cases h4 : cfg.Domains = []
        · simp [verifyUser, verifyUserSpec, firstMatch, h1', h2, h3, h4]
        · simp [verifyUser, verifyUserSpec, firstMatch, domainsRuleB,
            h1', h2, h3, h4]
      · refine bool_eq_of_iff ?_
        have hL : verifyUser cfg u = true ↔
            ∃ t ∈ u.TeamMemberships, t ∈ cfg.TeamWhiteList := by
          have hg : cfg.TeamWhiteList.length ≠ 0 := by
            simpa [List.length_eq_zero] using h3
          unfold verifyUser
          rw [if_neg (by simp [h1']), if_neg (by simp [h2]), if_pos hg]
          exact team_any_iff cfg u
        have hR : verifyUserSpec cfg u = true ↔
            ∃ t ∈ u.TeamMemberships, t ∈ cfg.TeamWhiteList := by
          simp [verifyUserSpec, firstMatch, h1', h2, h3, teamRuleB]
        exact hL.trans hR.symm
    · refine bool_eq_of_iff ?_
      have hR : verifyUserSpec cfg u = true ↔
          ∃ wl ∈ cfg.WhiteList, u.Username = wl ∨
            (isEmailValid u.Username = true ∧
             (cfg.CaseInsensitiveEmails = true ∨
              ∃ d ∈ cfg.CaseInsensitiveEmailDomains,
                lowerStr (emailDomain u.Username) = lowerStr d) ∧
             lowerStr u.Username = lowerStr wl) := by
        simp [verifyUserSpec, firstMatch, h1', h2, wlRuleB]
      exact (verifyUser_whitelist_iff cfg u h1' h2).trans hR.symm

/-- C4: in WhiteList mode the user is Allowed iff the username equals an
    entry exactly, or it is a valid email that is case-insensitive
    (its domain is in `CaseInsensitiveEmailDomains`, or
    `CaseInsensitiveEmails` is set) and equals an entry after
    case-folding both sides. -/
theorem whitelist_mode_decision (cfg : Cfg) (u : User)
    (h1 : cfg.AllowAllUsers = false) (h2 : cfg.WhiteList ≠ []) :
    verifyUser cfg u = true ↔
      ∃ wl ∈ cfg.WhiteList, u.Username = wl ∨
        (isEmailValid u.Username = true ∧
         (cfg.CaseInsensitiveEmails = true ∨
          ∃ d ∈ cfg.CaseInsensitiveEmailDomains,
            lowerStr (emailDomain u.Username) = lowerStr d) ∧
         lowerStr u.Username = lowerStr wl) := by
  exact verifyUser_whitelist_iff cfg u h1 h2

/-- Scenario S5 of the spec: whitelist entry `Bob@Example.com`,
    case-insensitive domain `example.com`, IdP user `bob@EXAMPLE.COM`. -/
def cfgS5 : Cfg :=
  { AllowAllUsers := false,
    WhiteList := [("Bob@Example.com".data)],
    TeamWhiteList := [],
    Domains := [],
    CaseInsensitiveEmails := false,
    CaseInsensitiveEmailDomains := [("example.com".data)],
    CodeChallengeMethod := [] }

/-- The user of scenario S5. -/
def userS5 : User :=
  { Username := ("bob@EXAMPLE.COM".data), Email := [], TeamMemberships := [] }

theorem whitelist_mode_decision_witness :
    cfgS5.AllowAllUsers = false ∧ cfgS5.WhiteList ≠ [] ∧
    (verifyUser cfgS5 userS5 = true ↔
      ∃ wl ∈ cfgS5.WhiteList, userS5.Username = wl ∨
        (isEmailValid userS5.Username = true ∧
         (cfgS5.CaseInsensitiveEmails = true ∨
          ∃ d ∈ cfgS5.CaseInsensitiveEmailDomains,
            lowerStr (emailDomain userS5.Username) = lowerStr d) ∧
         lowerStr userS5.Username = lowerStr wl)) :=
  ⟨by decide, by decide,
   whitelist_mode_decision cfgS5 userS5 (by decide) (by decide)⟩

/-- A configuration with `AllowAllUsers` set and nothing else. -/
def cfgAllowAll : Cfg :=
  { AllowAllUsers := true, WhiteList := [], TeamWhiteList := [],
    Domains := [], CaseInsensitiveEmails := false,
    CaseInsensitiveEmailDomains := [], CodeChallengeMethod := [] }

/-- A user whose `Username` is the empty string. -/
def emptyNameUser : User := { Username := [], Email := [], TeamMemberships := [] }

/-- C1 counterexample: with `AllowAllUsers` configured, `verifyUser`
    Allows a user whose `Username` is empty — the engine performs no
    empty-username rejection, contradicting the claim that such a user
    is rejected regardless of the configured mode. -/
theorem emptyUsername_allowed_counterexample :
    emptyNameUser.Username = [] ∧ verifyUser cfgAllowAll emptyNameUser = true := by
  constructor
  · rfl
  · rfl

/-- C1 (amended): in WhiteList mode, provided the whitelist does not
    itself contain the empty string, a user with empty `Username` is
    Denied; the engine has no general empty-username check, and other
    modes may Allow such a user. -/
theorem emptyUsername_denied_in_whitelist_mode (cfg : Cfg) (u : User)
    (h1 : cfg.AllowAllUsers = false) (h2 : cfg.WhiteList ≠ [])
    (h3 : [] ∉ cfg.WhiteList) (h4 : u.Username = []) :
    verifyUser cfg u = false := by
  have hlen : cfg.WhiteList.length ≠ 0 := by
    simpa [List.length_eq_zero] using h2
  unfold verifyUser
  rw [if_neg (by simp [h1]), if_pos hlen]
  rw [List.any_eq_false]
  intro wl hwl
  have hne : wl ≠ [] := fun h => h3 (h ▸ hwl)
  have hev : isEmailValid ([] : Str) = false := by decide
  simp [h4, hev]
  exact hne

/-- A whitelist-mode configuration without an empty entry. -/
def cfgWLPlain : Cfg :=
  { AllowAllUsers := false,
    WhiteList := [("bob@example.com".data)],
    TeamWhiteList := [], Domains := [],
    CaseInsensitiveEmails := false,
    CaseInsensitiveEmailDomains := [], CodeChallengeMethod := [] }

theorem emptyUsername_denied_in_whitelist_mode_witness :
    cfgWLPlain.AllowAllUsers = false ∧ cfgWLPlain.WhiteList ≠ [] ∧
    ([] ∉ cfgWLPlain.WhiteList) ∧ emptyNameUser.Username = [] ∧
    verifyUser cfgWLPlain emptyNameUser = false :=
  ⟨by decide, by decide, by decide, by decide,
   emptyUsername_denied_in_whitelist_mode cfgWLPlain emptyNameUser
     (by decide) (by decide) (by decide) (by decide)⟩

/-- C7: the ADFS fix-up leaves `Email` as provided unless it is empty and
    `UPN` matches the anchored email regex, in which case `Email`
    becomes `UPN`. -/
theorem adfs_email_fixup_rule :
    ∀ a : ADFSUser, (adfsEmailFixup a).Email =
      if a.Email = [] ∧ emailRegexMatch a.UPN = true then a.UPN
      else a.Email := by
  intro a
  unfold adfsEmailFixup
  by_cases h1 : a.Email = []
  · by_cases h2 : emailRegexMatch a.UPN = true
    · simp [h1, h2, goLen_eq_zero]
    · simp [h1, h2, goLen_eq_zero]
  · have hg : ¬ goLen a.Email = 0 := fun h => h1 (goLen_eq_zero.mp h)
    simp [h1, hg]

/-- C10: `isEmailValid` is false for every string whose byte length is
    below 3 or above 254, regardless of content, and within those bounds
    it is exactly the anchored email-regex match. -/
theorem isEmailValid_characterization :
    ∀ e : Str, isEmailValid e =
      (decide (3 ≤ goLen e) && decide (goLen e ≤ 254) &&
       emailRegexMatch e) := by
  intro e
  unfold isEmailValid
  split
  · rename_i h
    rw [Bool.or_eq_true, decide_eq_true_eq, decide_eq_true_eq] at h
    rcases h with h | h
    · have hh : ¬ (3 ≤ goLen e) := by omega
      simp [hh]
    · have hh : ¬ (goLen e ≤ 254) := by omega
      simp [hh]
  · rename_i h
    rw [Bool.or_eq_true, decide_eq_true_eq, decide_eq_true_eq] at h
    push_neg at h
    have h1 : 3 ≤ goLen e := by omega
    have h2 : goLen e ≤ 254 := by omega
    simp [h1, h2]

/-! ## Claim theorems: the HTTP handlers -/

/-- C8: `/auth` with a non-empty `error` query value answers 401 carrying
    the IdP's error description; with no `error` and an absent/empty
    `state` it answers 400. -/
theorem callback_error_handling :
    (∀ r : CallbackReq, r.errorParam ≠ [] →
      callbackHandler r =
        .error401 (errFromIdPMsg r.errorParam r.errorDescription)) ∧
    (∀ r : CallbackReq, r.errorParam = [] → r.state = [] →
      respKind (callbackHandler r) = RKind.k400) := by
  constructor
  · intro r h
    simp [callbackHandler, h]
  · intro r h1 h2
    simp [callbackHandler, h1, h2, respKind]

/-- A callback request carrying an IdP error. -/
def reqIdPError : CallbackReq :=
  { errorParam := ("access_denied".data),
    errorDescription := ("user cancelled".data),
    state := [], rawQuery := ("error=access_denied".data) }

/-- A callback request with neither an error nor a state. -/
def reqNoState : CallbackReq :=
  { errorParam := [], errorDescription := [], state := [],
    rawQuery := ("code=C1".data) }

theorem callback_error_handling_witness :
    (reqIdPError.errorParam ≠ [] ∧
     callbackHandler reqIdPError =
       .error401 (errFromIdPMsg reqIdPError.errorParam
         reqIdPError.errorDescription)) ∧
    (reqNoState.errorParam = [] ∧ reqNoState.state = [] ∧
     respKind (callbackHandler reqNoState) = RKind.k400) :=
  ⟨⟨by decide, callback_error_handling.1 reqIdPError (by decide)⟩,
   ⟨rfl, rfl, callback_error_handling.2 reqNoState rfl rfl⟩⟩

/-- C9: `/auth` with no `error` and a non-empty `state` always answers a
    302 redirect to `/auth/{state}/?` followed by the original raw
    query; `CallbackHandler` consumes no exchange capability, so the IdP
    exchange can only happen in the later `/auth/{state}/` request. -/
theorem callback_redirects_without_exchange :
    ∀ r : CallbackReq, r.errorParam = [] → r.state ≠ [] →
      callbackHandler r =
        .redirect302 (("/auth/".data) ++ r.state ++ ("/?".data) ++
          r.rawQuery) := by
  intro r h1 h2
  simp [callbackHandler, h1, h2]

/-- A well-formed IdP callback request. -/
def reqCallbackOk : CallbackReq :=
  { errorParam := [], errorDescription := [], state := ("S1".data),
    rawQuery := ("code=C1&state=S1".data) }

theorem callback_redirects_without_exchange_witness :
    reqCallbackOk.errorParam = [] ∧ reqCallbackOk.state ≠ [] ∧
    callbackHandler reqCallbackOk =
      .redirect302 (("/auth/".data) ++ reqCallbackOk.state ++
        ("/?".data) ++ reqCallbackOk.rawQuery) :=
  ⟨rfl, by decide,
   callback_redirects_without_exchange reqCallbackOk rfl (by decide)⟩

theorem pkceOkB_eq (env : AuthEnv) :
    pkceOkB env =
      !(decide (env.cfg.CodeChallengeMethod ≠ [] ∧
        ((env.sess.getD emptySession).codeChallenge = none ∨
         (env.sess.getD emptySession).codeVerifier = none))) := by
  unfold pkceOkB
  by_cases hm : env.cfg.CodeChallengeMethod = [] <;>
    by_cases hc : (env.sess.getD emptySession).codeChallenge = none <;>
      by_cases hv : (env.sess.getD emptySession).codeVerifier = none <;>
        simp [hm, hc, hv]

/-- C5: `AuthStateHandler` sets the session cookie exactly when session
    fetch, state check, PKCE assertions, IdP exchange, authorization and
    token minting all succeed, and the response is classified by the
    first failing step of that sequence (400, 400, panic, 400, 403, 500
    respectively) — so no failing step issues a cookie. -/
theorem authstate_cookie_iff_success :
    ∀ env : AuthEnv,
      (authStateHandler env).cookieSet =
        (sessOkB env && stateOkB env && pkceOkB env && exOkB env &&
         authzOkB env && mintOkB env) ∧
      respKind (authStateHandler env).resp = expectedKind env := by
  intro env
  rw [pkceOkB_eq]
  unfold authStateHandler expectedKind sessOkB stateOkB exOkB authzOkB mintOkB
  by_cases h1 : env.sessGetError
  · simp [h1, respKind]
  · by_cases h2 : (env.sess.getD emptySession).state = some env.queryState
    · by_cases h3 : env.cfg.CodeChallengeMethod ≠ [] ∧
          ((env.sess.getD emptySession).codeChallenge = none ∨
           (env.sess.getD emptySession).codeVerifier = none)
      · simp [h1, h2, h3, respKind]
      · cases hex : env.exchange with
        | error e => simp [h1, h2, h3, respKind]
        | ok user =>
          by_cases hv : verifyUser env.cfg user = false
          · simp [h1, h2, h3, hv, respKind]
          · have hv' : verifyUser env.cfg user = true := by simpa using hv
            cases hm : env.mintResult with
            | error e => simp [h1, h2, h3, hv', respKind]
            | ok tok =>
              cases hru : (env.sess.getD emptySession).requestedURL with
              | none => simp [h1, h2, h3, hv', hru, respKind]
              | some url =>
                by_cases hurl : url = []
                · simp [h1, h2, h3, hv', hru, hurl, respKind]
                · simp [h1, h2, h3, hv', hru, hurl, respKind]
    · simp [h1, h2, respKind]

/-- A session holding state `S1` and an empty stored `requestedURL`. -/
def sessEmptyURL : Session :=
  { state := some ("S1".data), codeChallenge := none,
    codeVerifier := none, requestedURL := some [] }

/-- A complete, succeeding `/auth/{state}/` request presenting state `S1`
    against `sessEmptyURL`, under the allow-all configuration. -/
def envReuse : AuthEnv :=
  { cfg := cfgAllowAll, sessGetError := false, sess := some sessEmptyURL,
    queryState := ("S1".data), exchange := .ok emptyNameUser,
    mintResult := .ok ("tok".data) }

/-- The replay of `envReuse`: the later request carries the session
    cookie exactly as the first, successful request left it. -/
def envReuseReplay : AuthEnv :=
  { envReuse with sess := (authStateHandler envReuse).sessAfter }

/-- C6 counterexample: a successful `/auth/{state}/` completion whose
    stored `requestedURL` is empty renders the index page without
    clearing the session, so a later request presenting the same state
    `S1` passes the state check again and completes again — the state is
    accepted twice and the replay is not rejected with 400. -/
theorem state_reuse_counterexample :
    respKind (authStateHandler envReuse).resp = RKind.kIndex ∧
    (authStateHandler envReuse).cookieSet = true ∧
    (authStateHandler envReuse).sessAfter = envReuse.sess ∧
    respKind (authStateHandler envReuseReplay).resp ≠ RKind.k400 ∧
    (authStateHandler envReuseReplay).cookieSet = true := by
  refine ⟨rfl, rfl, rfl, ?_, rfl⟩
  decide

/-- C6 (amended): only a successful completion that redirects (stored
    `requestedURL` non-empty) invalidates the state: the session is
    saved with `MaxAge = -1` and thus deleted, and any later
    `/auth/{state}/` request arriving without a session fails the state
    check with 400 and sets no cookie.  A successful completion with an
    empty stored `requestedURL` leaves the session intact (see the
    counterexample: the same state is then accepted again). -/
theorem state_single_use_on_redirect (env : AuthEnv) (s : Session)
    (url : Str)
    (h1 : env.sessGetError = false) (h2 : env.sess = some s)
    (h3 : s.state = some env.queryState)
    (h4 : env.cfg.CodeChallengeMethod = [])
    (h5 : exOkB env = true) (h6 : authzOkB env = true)
    (h7 : mintOkB env = true)
    (h8 : s.requestedURL = some url) (h9 : url ≠ []) :
    (authStateHandler env).resp = .redirect302 url ∧
    (authStateHandler env).cookieSet = true ∧
    (authStateHandler env).sessAfter = none ∧
    (∀ env2 : AuthEnv, env2.sessGetError = false → env2.sess = none →
      respKind (authStateHandler env2).resp = RKind.k400 ∧
      (authStateHandler env2).cookieSet = false) := by
  have hmain : authStateHandler env = ⟨.redirect302 url, true, none⟩ := by
    unfold authStateHandler
    rw [if_neg (by simp [h1]), h2]
    simp only [Option.getD_some]
    rw [if_neg (by simp [h3]), if_neg (by simp [h4])]
    rcases hex : env.exchange with e | user
    · rw [exOkB, hex] at h5
      exact absurd h5 (by simp)
    · have hvu : verifyUser env.cfg user = true := by
        rw [authzOkB, hex] at h6
        exact h6
      rcases hmint : env.mintResult with e | tok
      · rw [mintOkB, hmint] at h7
        exact absurd h7 (by simp)
      · simp [hvu, h8, h9]
  refine ⟨by rw [hmain], by rw [hmain], by rw [hmain], ?_⟩
  intro env2 g1 g2
  unfold authStateHandler
  rw [if_neg (by simp [g1]), g2]
  simp [emptySession, respKind]

/-- A session holding state `S1` and a non-empty stored `requestedURL`. -/
def sessWithURL : Session :=
  { state := some ("S1".data), codeChallenge := none,
    codeVerifier := none, requestedURL := some ("/app".data) }

/-- A complete, succeeding `/auth/{state}/` request against
    `sessWithURL`. -/
def envRedirect : AuthEnv :=
  { cfg := cfgAllowAll, sessGetError := false, sess := some sessWithURL,
    queryState := ("S1".data), exchange := .ok emptyNameUser,
    mintResult := .ok ("tok".data) }

/-- The replay of `envRedirect` after the session cookie was deleted. -/
def envRedirectReplay : AuthEnv :=
  { envRedirect with sess := none }

theorem state_single_use_on_redirect_witness :
    (authStateHandler envRedirect).resp = .redirect302 ("/app".data) ∧
    (authStateHandler envRedirect).sessAfter = none ∧
    respKind (authStateHandler envRedirectReplay).resp = RKind.k400 ∧
    (authStateHandler envRedirectReplay).cookieSet = false :=
  have h := state_single_use_on_redirect envRedirect sessWithURL
    ("/app".data) rfl rfl rfl rfl rfl rfl rfl rfl (by decide)
  ⟨h.1, h.2.2.1, (h.2.2.2 envRedirectReplay rfl rfl).1,
   (h.2.2.2 envRedirectReplay rfl rfl).2⟩

/-! ## Claim theorems: the ADFS exchange on malformed bodies -/

/-- The library outcome for a token-endpoint body that is not valid
    JSON: `json.Unmarshal` fails (and the later stages are therefore
    never consulted; their oracles are inert). -/
def envJsonFail : JsonEnv :=
  { unmarshalTokenRes := fun _ => none,
    b64RawURLDecode := fun _ => none,
    unmarshalADFSUser := fun _ => ⟨[], [], []⟩,
    mapClaims := fun _ => none,
    prepareUserData := id }

/-- The library outcome for a valid-JSON body whose `id_token` is
    `notajws` — a token without any `.` separator. -/
def envJsonNoDot : JsonEnv :=
  { unmarshalTokenRes :=
      fun _ => some ⟨("at".data), ("bearer".data), ("notajws".data), 3600⟩,
    b64RawURLDecode := fun _ => none,
    unmarshalADFSUser := fun _ => ⟨[], [], []⟩,
    mapClaims := fun _ => none,
    prepareUserData := id }

/-- The library outcome for a valid-JSON body whose `id_token` is
    `aa.b!b` — two segments, the second not base64url-decodable. -/
def envJsonBadB64 : JsonEnv :=
  { unmarshalTokenRes :=
      fun _ => some ⟨("at".data), ("bearer".data), ("aa.b!b".data), 3600⟩,
    b64RawURLDecode := fun _ => none,
    unmarshalADFSUser := fun _ => ⟨[], [], []⟩,
    mapClaims := fun _ => none,
    prepareUserData := id }

/-- Empty pass-through tokens. -/
def emptyPTokens : PTokens := { PAccessToken := [], PIdToken := [] }

/-- The `/auth/{state}/` request whose exchange is the ADFS provider run
    on a malformed body under the allow-all configuration. -/
def envAuthMalformed : AuthEnv :=
  { cfg := cfgAllowAll, sessGetError := false,
    sess := some { state := some ("S1".data), codeChallenge := none,
                   codeVerifier := none,
                   requestedURL := some ("/app".data) },
    queryState := ("S1".data),
    exchange := (getUserInfoFromADFS envJsonFail ("not json".data)
      emptyNameUser emptyPTokens).map Prod.fst,
    mintResult := .ok ("tok".data) }

/-- C3 counterexample: on a body that cannot be parsed, the ADFS
    exchange returns success (`nil`) with the `User` untouched, and the
    `/auth` flow does not surface 400 — it proceeds past the exchange
    step and (here, under allow-all) even issues the cookie for the
    unpopulated user. -/
theorem adfs_malformed_counterexample :
    getUserInfoFromADFS envJsonFail ("not json".data) emptyNameUser
      emptyPTokens = .ok (emptyNameUser, emptyPTokens) ∧
    respKind (authStateHandler envAuthMalformed).resp ≠ RKind.k400 ∧
    (authStateHandler envAuthMalformed).cookieSet = true := by
  refine ⟨rfl, ?_, rfl⟩
  decide

/-- C3 (amended): when the token-endpoint body cannot be parsed —
    malformed JSON, an `id_token` with fewer than two segments, or a
    second segment that fails base64 decoding — `GetUserInfoFromADFS`
    logs and returns `nil` (success) rather than an error, leaving the
    `User` unmodified, so the `/auth` flow continues instead of
    returning 400 at the exchange step. -/
theorem adfs_parse_failures_return_ok :
    (∀ (env : JsonEnv) (data : Str) (u : User) (p : PTokens),
      env.unmarshalTokenRes data = none →
      getUserInfoFromADFS env data u p = .ok (u, p)) ∧
    (∀ (env : JsonEnv) (data : Str) (u : User) (p : PTokens)
      (t : AdfsTokenRes),
      env.unmarshalTokenRes data = some t →
      (splitOnChar dotCh t.id_token).length < 2 →
      getUserInfoFromADFS env data u p =
        .ok (u, ⟨t.access_token, t.id_token⟩)) ∧
    (∀ (env : JsonEnv) (data : Str) (u : User) (p : PTokens)
      (t : AdfsTokenRes),
      env.unmarshalTokenRes data = some t →
      ¬ (splitOnChar dotCh t.id_token).length < 2 →
      env.b64RawURLDecode ((splitOnChar dotCh t.id_token).getD 1 []) =
        none →
      getUserInfoFromADFS env data u p =
        .ok (u, ⟨t.access_token, t.id_token⟩)) := by
  refine ⟨?_, ?_, ?_⟩
  · intro env data u p h
    unfold getUserInfoFromADFS
    rw [h]
  · intro env data u p t h1 h2
    unfold getUserInfoFromADFS
    rw [h1]
    simp only [h2, if_true, if_pos]
  · intro env data u p t h1 h2 h3
    unfold getUserInfoFromADFS
    rw [h1]
    simp only [h2, if_false, if_neg, not_false_eq_true]
    rw [h3]

theorem adfs_parse_failures_return_ok_witness :
    getUserInfoFromADFS envJsonFail ("x".data) emptyNameUser emptyPTokens
      = .ok (emptyNameUser, emptyPTokens) ∧
    getUserInfoFromADFS envJsonNoDot [] emptyNameUser emptyPTokens
      = .ok (emptyNameUser, ⟨("at".data), ("notajws".data)⟩) ∧
    getUserInfoFromADFS envJsonBadB64 [] emptyNameUser emptyPTokens
      = .ok (emptyNameUser, ⟨("at".data), ("aa.b!b".data)⟩) :=
  ⟨adfs_parse_failures_return_ok.1 envJsonFail ("x".data) emptyNameUser
     emptyPTokens rfl,
   adfs_parse_failures_return_ok.2.1 envJsonNoDot [] emptyNameUser
     emptyPTokens _ rfl (by decide),
   adfs_parse_failures_return_ok.2.2 envJsonBadB64 [] emptyNameUser
     emptyPTokens _ rfl (by decide) rfl⟩
